import Mathlib

/-!
Verification of the video-rendering pipeline (`src/render/pipeline.py`).

The pipeline is shallowly embedded as executable Lean definitions:

* the filesystem is an existence oracle `String → Bool` (for `Path.exists()`);
* each external `ffmpeg` invocation is a point of nondeterminism, resolved by
  an `Env` record that fixes the outcome of every stage, the stream of
  `uuid4().hex` identifiers, the name the `tempfile` module picks for the
  concat manifest, and whether each deletion succeeds;
* Python exceptions are values of `PyExc` (`ValueError`, the module's own
  `RenderError` and its subclass `FFmpegError`, the raw `ffmpeg.Error` of the
  ffmpeg-python library, and a catch-all for any other exception);
* filter graphs built with ffmpeg-python are embedded as expression trees
  (`VStream`, `AStream`);
* the watermark and music dicts reach the pipeline as raw, unvalidated JSON
  (`WatermarkCfgRaw`, `MusicCfgRaw` over `PyVal`), so the unguarded
  `int(margin)` and `float(volume)` conversions and the `opacity < 1.0`
  comparison can raise, exactly as in the source;
* effectful functions return a trace of `Event`s (files created, external
  runs, deletion attempts) next to their Python return value or exception.
-/

/-- Exceptions visible to the pipeline.  `renderError` is `RenderError`,
`ffmpegError` its subclass `FFmpegError` (both count as the spec's Media
Processing Error), `ffmpegLibError` is the library exception `ffmpeg.Error`
(not a `RenderError`), `otherError` is any other Python exception. -/
inductive PyExc where
  | valueError (msg : String)
  | renderError (msg : String)
  | ffmpegError (msg : String)
  | ffmpegLibError (msg : String)
  | otherError (msg : String)
deriving DecidableEq

/-- `True` exactly for the exceptions that are instances of the module's
`RenderError` class (`FFmpegError` subclasses it). -/
def isRenderError : PyExc → Bool
  | PyExc.renderError _ => true
  | PyExc.ffmpegError _ => true
  | _ => false

/-- Outcome of one external ffmpeg process invocation: it may succeed, raise
`ffmpeg.Error`, or raise some other exception. -/
inductive StageOutcome where
  | success
  | ffmpegError
  | otherError
deriving DecidableEq

/-- Name of a temporary file created in the temp directory, mirroring the
f-strings of the source: `segment (h)` is `f"segment_\x7bh\x7d.mp4"` from
`_prepare_segment`, `concatF (h)` is `f"concat_\x7bh\x7d.mp4"` from
`_concat_segments`. -/
inductive TempFileName where
  | segment (hex : String)
  | concatF (hex : String)
deriving DecidableEq

/-- A `pathlib.Path` of a temporary artifact: directory part plus file name,
as built by `output_dir / f"segment_..."` and `temp_dir / f"concat_..."`. -/
structure FPath where
  dir : String
  name : TempFileName
deriving DecidableEq

/-- Rendering of a `TempFileName` back to the posix file-name string. -/
def tempNameStr : TempFileName → String
  | TempFileName.segment h => "segment_" ++ h ++ ".mp4"
  | TempFileName.concatF h => "concat_" ++ h ++ ".mp4"

/-- `Path.as_posix()` of a temporary artifact. -/
def fpathStr (p : FPath) : String := p.dir ++ "/" ++ tempNameStr p.name

/-- Audio filter graphs built with ffmpeg-python (shallow embedding of the
stream objects passed around in the source). -/
inductive AStream where
  | source (path : String)
  | silence (channel_layout : String) (sample_rate : Nat)
  | inputLoop (path : String) (stream_loop : Int)
  | volumeF (s : AStream) (v : ℚ)
  | loudnormF (s : AStream) (i tp lra : ℚ)
  | amix (a b : AStream) (duration : String) (dropout_transition : ℚ)
deriving DecidableEq

/-- Video filter graphs built with ffmpeg-python. -/
inductive VStream where
  | source (path : String)
  | filterScale (s : VStream) (w h : Int)
  | formatF (s : VStream) (fmt : String)
  | colormix (s : VStream) (aa : ℚ)
  | overlayF (base ovl : VStream) (x y : String)
deriving DecidableEq

/-- The x/y coordinate format strings of `WATERMARK_POSITIONS`; `margin` is
the template that the source writes as a brace-delimited `margin` slot,
`wMinusWMargin` the template `W-w-` followed by that slot, and so on. -/
inductive CoordExpr where
  | margin
  | wMinusWMargin
  | hMinusHMargin
  | centerX
  | centerY
deriving DecidableEq

/-- `expr.format(margin=m)`: substitute the margin into the coordinate
format string. -/
def coordFormat : CoordExpr → Int → String
  | CoordExpr.margin, m => toString m
  | CoordExpr.wMinusWMargin, m => "W-w-" ++ toString m
  | CoordExpr.hMinusHMargin, m => "H-h-" ++ toString m
  | CoordExpr.centerX, _ => "(W-w)/2"
  | CoordExpr.centerY, _ => "(H-h)/2"

/-- The `WATERMARK_POSITIONS` dict: five recognized position keys, `.get`
returning `none` for every other key. -/
def WATERMARK_POSITIONS : String → Option (CoordExpr × CoordExpr)
  | "top-left" => some (CoordExpr.margin, CoordExpr.margin)
  | "top-right" => some (CoordExpr.wMinusWMargin, CoordExpr.margin)
  | "bottom-left" => some (CoordExpr.margin, CoordExpr.hMinusHMargin)
  | "bottom-right" => some (CoordExpr.wMinusWMargin, CoordExpr.hMinusHMargin)
  | "center" => some (CoordExpr.centerX, CoordExpr.centerY)
  | _ => none

/-- The module constant `VERTICAL_FORMAT = (1080, 1920)`. -/
def VERTICAL_FORMAT : Int × Int := (1080, 1920)

/-- The module constant `HORIZONTAL_FORMAT = (1920, 1080)`. -/
def HORIZONTAL_FORMAT : Int × Int := (1920, 1080)

/-- Python's `int(x)` on a real number: truncation toward zero. -/
def pyInt (q : ℚ) : Int := q.num.sign * ((q.num.natAbs / q.den : Nat) : Int)

/-- A raw value of the unvalidated settings JSON handed to the pipeline: a
number (int or float) or a string.  A string stands in for any non-numeric
value here; other JSON shapes (null, arrays, objects) are not modeled. -/
inductive PyVal where
  | num (q : ℚ)
  | str (s : String)
deriving DecidableEq

/-- The natural number denoted by a list of base-10 digit characters. -/
def digitsVal (cs : List Char) : Nat :=
  cs.foldl (fun acc c => acc * 10 + (c.toNat - ('0').toNat)) 0

/-- Python's `int()` on a string: an optional sign followed by at least one
digit parses to that integer; anything else (such as `"40px"`) raises
`ValueError`.  (Whitespace tolerance and underscore separators of the real
parser are omitted.) -/
def str_to_int (s : String) : Except PyExc Int :=
  let signed : Bool × List Char :=
    match s.data with
    | '-' :: rest => (true, rest)
    | '+' :: rest => (false, rest)
    | cs => (false, cs)
  if signed.2.isEmpty then
    Except.error (PyExc.valueError ("invalid literal for int() with base 10: " ++ s))
  else if signed.2.all (fun c => c.isDigit) then
    Except.ok (if signed.1 then -(digitsVal signed.2 : Int) else (digitsVal signed.2 : Int))
  else
    Except.error (PyExc.valueError ("invalid literal for int() with base 10: " ++ s))

/-- Python's `float()` on a string: an optional sign, integer digits and an
optional decimal point with fractional digits (at least one digit overall)
parse to that rational; anything else (such as `"loud"`) raises
`ValueError`.  (Exponent notation and whitespace tolerance are omitted.) -/
def str_to_float (s : String) : Except PyExc ℚ :=
  let signed : Bool × List Char :=
    match s.data with
    | '-' :: rest => (true, rest)
    | '+' :: rest => (false, rest)
    | cs => (false, cs)
  let intPart := signed.2.takeWhile (fun c => c.isDigit)
  let rest := signed.2.dropWhile (fun c => c.isDigit)
  let build : Option ℚ :=
    match rest with
    | [] => if intPart.isEmpty then none else some ((digitsVal intPart : ℚ))
    | '.' :: frac =>
      if frac.all (fun c => c.isDigit) && !(intPart.isEmpty && frac.isEmpty) then
        some ((digitsVal intPart : ℚ) + (digitsVal frac : ℚ) / ((10 : ℚ) ^ frac.length))
      else none
    | _ => none
  match build with
  | some q => Except.ok (if signed.1 then -q else q)
  | none => Except.error (PyExc.valueError ("could not convert string to float: " ++ s))

/-- Python's `int()` applied to a settings value: a number truncates toward
zero, a string parses via `str_to_int` or raises `ValueError`. -/
def py_int_of : PyVal → Except PyExc Int
  | PyVal.num q => Except.ok (pyInt q)
  | PyVal.str s => str_to_int s

/-- Python's `float()` applied to a settings value: a number passes through,
a string parses via `str_to_float` or raises `ValueError`. -/
def py_float_of : PyVal → Except PyExc ℚ
  | PyVal.num q => Except.ok q
  | PyVal.str s => str_to_float s

/-- The `render_loudness` settings dict: per-key overrides of
`DEFAULT_LOUDNESS`. -/
structure LoudnessCfg where
  target_i : Option ℚ := none
  target_tp : Option ℚ := none
  target_lra : Option ℚ := none
deriving DecidableEq

/-- The module constant `DEFAULT_LOUDNESS` (integrated loudness, true peak,
loudness range). -/
def DEFAULT_LOUDNESS : ℚ × ℚ × ℚ := (-16, -3/2, 11)

/-- `_loudnorm`: merge the given config over `DEFAULT_LOUDNESS` and apply the
`loudnorm` filter to the audio stream. -/
def loudnorm (audio_stream : AStream) (loudness_cfg : Option LoudnessCfg) : AStream :=
  let c := loudness_cfg.getD {}
  AStream.loudnormF audio_stream
    (c.target_i.getD DEFAULT_LOUDNESS.1)
    (c.target_tp.getD DEFAULT_LOUDNESS.2.1)
    (c.target_lra.getD DEFAULT_LOUDNESS.2.2)

/-- `_has_audio_track`: the probe invocation either returns the stream list
(summarized by whether an audio stream is present) or raises.  Only
`ffmpeg.Error` is caught and turned into `False`; any other exception
propagates. -/
def has_audio_track (probe_result : Except PyExc Bool) : Except PyExc Bool :=
  match probe_result with
  | Except.ok b => Except.ok b
  | Except.error (PyExc.ffmpegLibError _) => Except.ok false
  | Except.error e => Except.error e

/-- `_ensure_audio`: return the video's own audio stream when `has_audio` is
set and the stream has one, else synthesize silence via
`anullsrc=channel_layout=stereo:sample_rate=44100`. -/
def ensure_audio (stream_audio : Option AStream) (has_audio : Bool) : AStream :=
  match has_audio, stream_audio with
  | true, some a => a
  | true, none => AStream.silence "stereo" 44100
  | false, _ => AStream.silence "stereo" 44100

/-- The watermark configuration in its converted, all-numeric view: `width`
and `relative_width` mirror the dict entries that the source guards with
`isinstance(..., (int, float))` at use (`none` = absent or non-numeric),
while `margin` and `opacity` here hold the numeric values left after the
*unguarded* `int(margin)` conversion and `opacity < 1.0` comparison of the
source succeeded.  The raw dict with those conversions still pending is
`WatermarkCfgRaw`, and `apply_watermark_raw` is the full embedding of
`_apply_watermark`; `apply_watermark` below is its conversion-free body. -/
structure WatermarkCfg where
  path : Option String := none
  position : Option String := none
  margin : Option ℚ := none
  width : Option ℚ := none
  relative_width : Option ℚ := none
  opacity : Option ℚ := none
deriving DecidableEq

/-- `_apply_watermark`: overlay the watermark on the video stream; no-op when
no config, no path, or the file does not exist. -/
def apply_watermark (fs : String → Bool) (video_stream : VStream)
    (watermark_cfg : Option WatermarkCfg) (width : Int) : VStream :=
  match watermark_cfg with
  | none => video_stream
  | some c =>
    match c.path with
    | none => video_stream
    | some wp =>
      if wp = "" then video_stream
      else if fs wp = false then video_stream
      else
        let m := pyInt (c.margin.getD 40)
        let pos := (WATERMARK_POSITIONS (c.position.getD ("top-right"))).getD
          (CoordExpr.wMinusWMargin, CoordExpr.margin)
        let overlay0 := VStream.source wp
        let overlay1 :=
          match c.width with
          | some w =>
            if 0 < w then VStream.filterScale overlay0 (pyInt w) (-1)
            else
              match c.relative_width with
              | some r => VStream.filterScale overlay0 (pyInt ((width : ℚ) * r)) (-1)
              | none => overlay0
          | none =>
            match c.relative_width with
            | some r => VStream.filterScale overlay0 (pyInt ((width : ℚ) * r)) (-1)
            | none => overlay0
        let op := c.opacity.getD 1
        let overlay2 :=
          if op < 1 then VStream.colormix (VStream.formatF overlay1 ("rgba")) op
          else overlay1
        VStream.overlayF video_stream overlay2 (coordFormat pos.1 m) (coordFormat pos.2 m)

/-- The raw `render_watermark` dict exactly as loaded from the settings
JSON: nothing is validated.  `margin` and `opacity` may hold any value —
the source converts `margin` with a bare `int(...)` and compares `opacity`
with `< 1.0` unguarded — while `width` and `relative_width` are
isinstance-guarded at use, so a non-numeric value behaves as absent
(`none`). -/
structure WatermarkCfgRaw where
  path : Option String := none
  position : Option String := none
  margin : Option PyVal := none
  width : Option ℚ := none
  relative_width : Option ℚ := none
  opacity : Option PyVal := none
deriving DecidableEq

/-- `_apply_watermark` on the raw dict: the no-op guards (no config, no
path, missing file) run first; then `int(margin)` runs unguarded and may
raise `ValueError`; a non-numeric opacity raises `TypeError` at the
`opacity < 1.0` comparison (a `TypeError` is not a `ValueError`, hence
`otherError`).  Once both conversions succeed the remaining body is exactly
`apply_watermark` on the converted numeric config (`pyInt` of an integer
cast is the integer itself, so the margin round-trips unchanged). -/
def apply_watermark_raw (fs : String → Bool) (video_stream : VStream)
    (watermark_cfg : Option WatermarkCfgRaw) (width : Int) : Except PyExc VStream :=
  match watermark_cfg with
  | none => Except.ok video_stream
  | some c =>
    match c.path with
    | none => Except.ok video_stream
    | some wp =>
      if wp = "" then Except.ok video_stream
      else if fs wp = false then Except.ok video_stream
      else
        match py_int_of (c.margin.getD (PyVal.num 40)) with
        | Except.error e => Except.error e
        | Except.ok m =>
          match c.opacity.getD (PyVal.num 1) with
          | PyVal.str _ =>
              Except.error
                (PyExc.otherError "TypeError: unsupported comparison between str and float")
          | PyVal.num op =>
              Except.ok (apply_watermark fs video_stream
                (some { path := c.path, position := c.position, margin := some ((m : ℚ)),
                        width := c.width, relative_width := c.relative_width,
                        opacity := some op }) width)

/-- `true` iff the unguarded conversions of `_apply_watermark` cannot raise
for this config: the margin converts with `int()` and the opacity is
numeric. -/
def watermark_stage_safe (c : Option WatermarkCfgRaw) : Bool :=
  match c with
  | none => true
  | some w =>
    (match py_int_of (w.margin.getD (PyVal.num 40)) with
     | Except.ok _ => true
     | Except.error _ => false)
    && (match w.opacity.getD (PyVal.num 1) with
        | PyVal.num _ => true
        | PyVal.str _ => false)

/-- The background-music configuration in its converted, numeric view:
`ducking` mirrors the isinstance-guarded dict entry (`none` = absent or
non-numeric), while `volume` holds the number left after the *unguarded*
`float(volume)` conversion of the source succeeded.  The raw dict with the
conversion still pending is `MusicCfgRaw`, and `mix_background_audio_raw`
is the full embedding of `_mix_background_audio`; `mix_background_audio`
below is its conversion-free body. -/
structure MusicCfg where
  path : Option String := none
  volume : Option ℚ := none
  ducking : Option ℚ := none
deriving DecidableEq

/-- `_mix_background_audio`: loop the music (`stream_loop=-1`), scale it by
the configured volume (default `0.1`), duck the original audio when
`0 < ducking < 1`, and `amix` both with `duration="shortest"`. -/
def mix_background_audio (fs : String → Bool) (audio_stream : AStream)
    (music_cfg : Option MusicCfg) : AStream :=
  match music_cfg with
  | none => audio_stream
  | some m =>
    match m.path with
    | none => audio_stream
    | some mp =>
      if mp = "" then audio_stream
      else if fs mp = false then audio_stream
      else
        let volume := m.volume.getD (1/10)
        let music_stream := AStream.volumeF (AStream.inputLoop mp (-1)) volume
        let audio2 :=
          match m.ducking with
          | some d => if 0 < d ∧ d < 1 then AStream.volumeF audio_stream d else audio_stream
          | none => audio_stream
        AStream.amix audio2 music_stream "shortest" 2

/-- The raw `render_background_music` dict exactly as loaded from the
settings JSON: `volume` may hold any value — the source converts it with a
bare `float(...)` — while `ducking` is isinstance-guarded at use, so a
non-numeric value behaves as absent (`none`). -/
structure MusicCfgRaw where
  path : Option String := none
  volume : Option PyVal := none
  ducking : Option ℚ := none
deriving DecidableEq

/-- `_mix_background_audio` on the raw dict: the no-op guards (no config, no
path, missing file) run first; then `float(volume)` runs unguarded and may
raise `ValueError`.  Once the conversion succeeds the remaining body is
exactly `mix_background_audio` on the converted numeric config. -/
def mix_background_audio_raw (fs : String → Bool) (audio_stream : AStream)
    (music_cfg : Option MusicCfgRaw) : Except PyExc AStream :=
  match music_cfg with
  | none => Except.ok audio_stream
  | some m =>
    match m.path with
    | none => Except.ok audio_stream
    | some mp =>
      if mp = "" then Except.ok audio_stream
      else if fs mp = false then Except.ok audio_stream
      else
        match py_float_of (m.volume.getD (PyVal.num (1/10))) with
        | Except.error e => Except.error e
        | Except.ok v =>
            Except.ok (mix_background_audio fs audio_stream
              (some { path := m.path, volume := some v, ducking := m.ducking }))

/-- `true` iff the unguarded `float(volume)` conversion of
`_mix_background_audio` cannot raise for this config. -/
def music_stage_safe (m : Option MusicCfgRaw) : Bool :=
  match m with
  | none => true
  | some c =>
    match py_float_of (c.volume.getD (PyVal.num (1/10))) with
    | Except.ok _ => true
    | Except.error _ => false

/-- The flat settings dict consumed by `render_videos` (recognized keys
only; an absent key is `none`).  The watermark and music entries are the
raw, unvalidated dicts of the settings JSON. -/
structure Settings where
  render_intro_path : Option String := none
  render_outro_path : Option String := none
  render_watermark : Option WatermarkCfgRaw := none
  render_background_music : Option MusicCfgRaw := none
  render_loudness : Option LoudnessCfg := none
  temp_folder : Option String := none

/-- `true` iff neither compositing-stage unguarded conversion
(`int(margin)`, the opacity comparison, `float(volume)`) can raise for
these settings. -/
def settings_stage_safe (s : Settings) : Bool :=
  watermark_stage_safe s.render_watermark && music_stage_safe s.render_background_music

/-- `_optional_segment`: a falsy value (absent key or empty string) yields
`None`; an existing path is kept; a missing file is dropped with a warning. -/
def optional_segment (fs : String → Bool) (path_value : Option String) : Option String :=
  match path_value with
  | none => none
  | some p => if p = "" then none else if fs p then some p else none

/-- `_assemble_segments`: optional intro, then every existing clip in the
given order, then optional outro. -/
def assemble_segments (fs : String → Bool) (video_paths : List String)
    (settings : Settings) : List String :=
  let segments : List String := []
  let segments :=
    match optional_segment fs settings.render_intro_path with
    | some intro => segments ++ [intro]
    | none => segments
  let segments := video_paths.foldl (fun acc clip => if fs clip then acc ++ [clip] else acc) segments
  match optional_segment fs settings.render_outro_path with
  | some outro => segments ++ [outro]
  | none => segments

/-- Observable filesystem / process events of one pipeline run, in order. -/
inductive Event where
  | mkdirParent (output_path : String)
  | mkdirP (dir : String)
  | ffmpegRunPrepare (input : String) (out : FPath)
  | createFile (p : FPath)
  | writeManifest (manifest : String) (entries : List FPath)
  | runConcat (manifest : String) (out : FPath) (codec : String)
  | removeManifest (manifest : String)
  | removeManifestFailed (manifest : String)
  | runFinalEncode (out : String) (video : VStream) (audio : AStream)
  | createOutput (out : String)
  | removeFile (p : FPath)
  | removeFailed (p : FPath)
deriving DecidableEq

/-- Environment resolving all nondeterminism of one run: the `uuid4().hex`
stream, the outcome of each external ffmpeg invocation, the manifest file
name that `tempfile.NamedTemporaryFile` picks, and which deletions succeed. -/
structure Env where
  uuid : Nat → String
  prepareOutcome : Nat → StageOutcome
  concatOutcome : StageOutcome
  finalOutcome : StageOutcome
  manifestPath : String
  removeOk : FPath → Bool
  removeManifestOk : Bool

/-- `_prepare_segment`: create the temp directory, pick the output name
`segment_<hex>.mp4`, run ffmpeg; `ffmpeg.Error` becomes `FFmpegError`, any
other exception becomes `RenderError`. -/
def prepare_segment (env : Env) (uuidIdx : Nat) (input_path : String)
    (output_dir : String) : List Event × Except PyExc FPath :=
  let prepared_path : FPath := ⟨output_dir, TempFileName.segment (env.uuid uuidIdx)⟩
  match env.prepareOutcome uuidIdx with
  | StageOutcome.success =>
      ([Event.mkdirP output_dir, Event.ffmpegRunPrepare input_path prepared_path,
        Event.createFile prepared_path],
       Except.ok prepared_path)
  | StageOutcome.ffmpegError =>
      ([Event.mkdirP output_dir, Event.ffmpegRunPrepare input_path prepared_path],
       Except.error (PyExc.ffmpegError ("FFmpeg-Fehler bei Clip-Normalisierung: " ++ input_path)))
  | StageOutcome.otherError =>
      ([Event.mkdirP output_dir],
       Except.error (PyExc.renderError ("Fehler bei Clip-Normalisierung: " ++ input_path)))

/-- The Phase-2 loop of `render_videos`: normalize each raw segment in turn,
stopping at (and propagating) the first failure. -/
def prepare_all (env : Env) (temp_dir : String) (segs : List String)
    (idx : Nat) : List Event × Except PyExc (List FPath) :=
  match segs with
  | [] => ([], Except.ok [])
  | s :: rest =>
    match prepare_segment env idx s temp_dir with
    | (evs, Except.error e) => (evs, Except.error e)
    | (evs, Except.ok p) =>
      match prepare_all env temp_dir rest (idx + 1) with
      | (evs2, Except.error e) => (evs ++ evs2, Except.error e)
      | (evs2, Except.ok ps) => (evs ++ evs2, Except.ok (p :: ps))

/-- `_concat_segments`: write the manifest listing the segments in order, run
the stream-copy concat, and always attempt to delete the manifest (an
`OSError` from the deletion is swallowed); `ffmpeg.Error` becomes
`FFmpegError`, any other exception becomes `RenderError`. -/
def concat_segments (env : Env) (segment_paths : List FPath) (temp_dir : String)
    (uuidIdx : Nat) : List Event × Except PyExc FPath :=
  let concatenated : FPath := ⟨temp_dir, TempFileName.concatF (env.uuid uuidIdx)⟩
  let evs := [Event.writeManifest env.manifestPath segment_paths,
              Event.runConcat env.manifestPath concatenated ("copy")]
  let evsRun :=
    match env.concatOutcome with
    | StageOutcome.success => [Event.createFile concatenated]
    | _ => []
  let res : Except PyExc FPath :=
    match env.concatOutcome with
    | StageOutcome.success => Except.ok concatenated
    | StageOutcome.ffmpegError => Except.error (PyExc.ffmpegError "FFmpeg-Fehler bei Segment-Konkatenation")
    | StageOutcome.otherError => Except.error (PyExc.renderError "Fehler bei Segment-Konkatenation")
  let evsClean :=
    if env.removeManifestOk then [Event.removeManifest env.manifestPath]
    else [Event.removeManifestFailed env.manifestPath]
  (evs ++ evsRun ++ evsClean, res)

/-- Phase 4 of `render_videos`: build the final filter graph in source
order — watermark (whose unguarded conversions may raise), background music
(likewise), final loudness pass — then run the final encode.  A graph-build
exception propagates before any run; a failing run raises the raw
`ffmpeg.Error` (nothing wraps either here). -/
def final_encode (fs : String → Bool) (env : Env) (settings : Settings)
    (concatenated : FPath) (output_path : String) (target_width : Int)
    (loudness_cfg : Option LoudnessCfg) : List Event × Except PyExc String :=
  match apply_watermark_raw fs (VStream.source (fpathStr concatenated))
      settings.render_watermark target_width with
  | Except.error e => ([], Except.error e)
  | Except.ok video =>
    match mix_background_audio_raw fs
        (ensure_audio (some (AStream.source (fpathStr concatenated))) true)
        settings.render_background_music with
    | Except.error e => ([], Except.error e)
    | Except.ok audio1 =>
      let audio := loudnorm audio1 loudness_cfg
      match env.finalOutcome with
      | StageOutcome.success =>
          ([Event.runFinalEncode output_path video audio, Event.createOutput output_path],
           Except.ok output_path)
      | StageOutcome.ffmpegError =>
          ([Event.runFinalEncode output_path video audio],
           Except.error (PyExc.ffmpegLibError "final encode"))
      | StageOutcome.otherError =>
          ([Event.runFinalEncode output_path video audio],
           Except.error (PyExc.otherError "final encode"))

/-- The `finally` block of the inner `try` of `render_videos`: best-effort
deletion of every prepared segment and, when it exists, of the concatenated
intermediate; failures are logged, never raised. -/
def cleanup_events (env : Env) (prepared : List FPath)
    (concatenated : Option FPath) : List Event :=
  prepared.map (fun p => if env.removeOk p then Event.removeFile p else Event.removeFailed p)
    ++ (match concatenated with
        | some c => [if env.removeOk c then Event.removeFile c else Event.removeFailed c]
        | none => [])

/-- The outer `except` clauses of `render_videos`: `RenderError`,
`FFmpegError` and `ValueError` are re-raised as they are; every other
exception is wrapped into a `RenderError`. -/
def orchestrator_wrap : PyExc → PyExc
  | PyExc.valueError m => PyExc.valueError m
  | PyExc.renderError m => PyExc.renderError m
  | PyExc.ffmpegError m => PyExc.ffmpegError m
  | PyExc.ffmpegLibError m => PyExc.renderError ("Unerwarteter Fehler beim Video-Rendering: " ++ m)
  | PyExc.otherError m => PyExc.renderError ("Unerwarteter Fehler beim Video-Rendering: " ++ m)

/-- `render_videos`: the full orchestrator.  Returns the event trace of the
run next to the returned output path or the raised exception. -/
def render_videos (fs : String → Bool) (env : Env) (video_paths : List String)
    (output_path : String) (vertical : Bool) (fps : Nat)
    (settingsOpt : Option Settings) : List Event × Except PyExc String :=
  let settings := settingsOpt.getD {}
  let target := if vertical then VERTICAL_FORMAT else HORIZONTAL_FORMAT
  let loudness_cfg := settings.render_loudness
  let raw_segments := assemble_segments fs video_paths settings
  if raw_segments.isEmpty then
    ([Event.mkdirParent output_path],
     Except.error (PyExc.valueError "Keine gueltigen Videos zum Rendern uebergeben"))
  else
    let temp_dir := settings.temp_folder.getD "./temp"
    match prepare_all env temp_dir raw_segments 0 with
    | (evsP, Except.error e) =>
        (Event.mkdirParent output_path :: evsP, Except.error (orchestrator_wrap e))
    | (evsP, Except.ok prepared) =>
        match concat_segments env prepared temp_dir raw_segments.length with
        | (evsC, Except.error e) =>
            (Event.mkdirParent output_path :: (evsP ++ evsC ++ cleanup_events env prepared none),
             Except.error (orchestrator_wrap e))
        | (evsC, Except.ok concatenated) =>
            match final_encode fs env settings concatenated output_path target.1 loudness_cfg with
            | (evsF, Except.error e) =>
                (Event.mkdirParent output_path ::
                   (evsP ++ evsC ++ evsF ++ cleanup_events env prepared (some concatenated)),
                 Except.error (orchestrator_wrap e))
            | (evsF, Except.ok outPath) =>
                (Event.mkdirParent output_path ::
                   (evsP ++ evsC ++ evsF ++ cleanup_events env prepared (some concatenated)),
                 Except.ok outPath)

/-- Temporary files created during a run (the arguments of the `createFile`
events of its trace). -/
def createdFiles (tr : List Event) : List FPath :=
  tr.filterMap fun e =>
    match e with
    | Event.createFile p => some p
    | _ => none

/-- `true` iff every temporary file created in the trace also has a deletion
attempt (successful or failed) somewhere in the trace. -/
def cleanup_complete (tr : List Event) : Bool :=
  tr.all fun e =>
    match e with
    | Event.createFile p =>
        tr.any fun e2 =>
          decide (e2 = Event.removeFile p) || decide (e2 = Event.removeFailed p)
    | _ => true

/-- `true` iff the run's result is one of the three outcomes the spec allows
the caller to observe: a success path, a `ValueError`, or a `RenderError`
(including its subclass `FFmpegError`). -/
def acceptable_outcome : Except PyExc String → Bool
  | Except.ok _ => true
  | Except.error (PyExc.valueError _) => true
  | Except.error e => isRenderError e

/-- `true` iff the trace contains nothing beyond the initial creation of the
output file's parent directory: no ffmpeg run, no file created or removed. -/
def no_media_processing (tr : List Event) : Bool :=
  tr.all fun e =>
    match e with
    | Event.mkdirParent _ => true
    | _ => false

/-- `true` iff every temporary file created in the trace lives in `./temp`
and its name embeds one of the first `bound + 1` identifiers of the uuid
stream. -/
def temp_files_ok (env : Env) (bound : Nat) (tr : List Event) : Bool :=
  tr.all fun e =>
    match e with
    | Event.createFile p =>
        decide (p.dir = "./temp") &&
          ((List.range (bound + 1)).any fun i =>
            decide (p.name = TempFileName.segment (env.uuid i)) ||
              decide (p.name = TempFileName.concatF (env.uuid i)))
    | _ => true

/-- The x/y position expressions of the watermark overlay, when the stream is
an overlay. -/
def overlay_pos : VStream → Option (String × String)
  | VStream.overlayF _ _ x y => some (x, y)
  | _ => none

/-- The scale width applied to a (possibly opacity-wrapped) overlay image. -/
def scale_width_of : VStream → Option Int
  | VStream.filterScale _ w _ => some w
  | VStream.formatF s _ => scale_width_of s
  | VStream.colormix s _ => scale_width_of s
  | _ => none

/-- The scale width of the overlay argument of a watermarked stream. -/
def overlay_scaled_width : VStream → Option Int
  | VStream.overlayF _ ovl _ _ => scale_width_of ovl
  | _ => none

/-! ### Helper lemmas -/

theorem foldl_filter_append (fs : String → Bool) (l : List String) (acc : List String) :
    l.foldl (fun acc clip => if fs clip then acc ++ [clip] else acc) acc
      = acc ++ l.filter (fun p => fs p) := by
  induction l generalizing acc with
  | nil => simp
  | cons x xs ih =>
    simp only [List.foldl_cons, List.filter_cons]
    cases h : fs x with
    | true => simp [h, ih]
    | false => simp [h, ih]

theorem scale_width_opacity (s : VStream) (op : ℚ) :
    scale_width_of (if op < 1 then VStream.colormix (VStream.formatF s ("rgba")) op else s)
      = scale_width_of s := by
  by_cases h : op < 1 <;> simp [h, scale_width_of]

theorem pyInt_intCast (n : Int) : pyInt ((n : ℚ)) = n := by
  simp [pyInt, Rat.num_intCast, Rat.den_intCast]
  exact Int.sign_mul_abs n

theorem pyInt_half_1080 : pyInt (((1080 : Int) : ℚ) * (1/2)) = 540 := by
  have h : ((1080 : Int) : ℚ) * (1/2) = ((540 : Int) : ℚ) := by norm_num
  rw [h, pyInt_intCast]

theorem pyInt_zero : pyInt ((0 : ℚ)) = 0 := by
  simp [pyInt]

/-! ### Claim theorems -/

/-- Claim C3, counterexample: a probe failure that is not an `ffmpeg.Error`
(for instance the ffprobe executable missing) propagates out of
`_has_audio_track` instead of being treated as "no audio", so the claim that
a probe failure for any reason yields `False` is wrong. -/
theorem c3_probe_counterexample :
    has_audio_track (Except.error (PyExc.otherError "ffprobe missing"))
        = Except.error (PyExc.otherError "ffprobe missing")
  ∧ has_audio_track (Except.error (PyExc.otherError "ffprobe missing"))
        ≠ Except.ok false :=
  ⟨rfl, fun h => Except.noConfusion h⟩

/-- Claim C3 as amended: when probing raises `ffmpeg.Error` (corrupt or
unreadable file), `_has_audio_track` returns `False`, and a segment without
audio gets a synthesized silent stereo 44.1kHz track via `_ensure_audio`. -/
theorem c3_probe_amended (m : String) (sa : Option AStream) :
    has_audio_track (Except.error (PyExc.ffmpegLibError m)) = Except.ok false
  ∧ ensure_audio sa false = AStream.silence "stereo" 44100 := by
  refine ⟨rfl, ?_⟩
  cases sa <;> rfl

/-- Claim C4: the assembler returns optional intro, then the existing clips
in order, then optional outro; with intro and outro present and all clips
existing the length is `1 + len(clips) + 1`. -/
theorem c4_assemble_shape (fs : String → Bool) (video_paths : List String)
    (settings : Settings) :
    assemble_segments fs video_paths settings =
      (optional_segment fs settings.render_intro_path).toList
        ++ video_paths.filter (fun p => fs p)
        ++ (optional_segment fs settings.render_outro_path).toList
  ∧ ((optional_segment fs settings.render_intro_path).isSome = true →
      (optional_segment fs settings.render_outro_path).isSome = true →
      (∀ p ∈ video_paths, fs p = true) →
      (assemble_segments fs video_paths settings).length
        = 1 + video_paths.length + 1) := by
  have hshape : assemble_segments fs video_paths settings =
      (optional_segment fs settings.render_intro_path).toList
        ++ video_paths.filter (fun p => fs p)
        ++ (optional_segment fs settings.render_outro_path).toList := by
    unfold assemble_segments
    cases hI : optional_segment fs settings.render_intro_path <;>
      cases hO : optional_segment fs settings.render_outro_path <;>
        simp [foldl_filter_append]
  refine ⟨hshape, ?_⟩
  intro hI hO hall
  obtain ⟨i, hi⟩ := Option.isSome_iff_exists.mp hI
  obtain ⟨o, ho⟩ := Option.isSome_iff_exists.mp hO
  have hfil : video_paths.filter (fun p => fs p) = video_paths :=
    List.filter_eq_self.mpr hall
  rw [hshape, hi, ho, hfil]
  simp [Nat.add_comm]

/-- Claim C7, counterexample: a watermark config that specifies both an
absolute width (here `0`) and a relative width scales the overlay by the
relative width (to 540px on a 1080-wide target), not by the absolute one,
because the absolute branch requires `width > 0`. -/
theorem c7_width_counterexample :
    overlay_scaled_width (apply_watermark (fun _ => true) (VStream.source ("v.mp4"))
        (some { path := some ("wm.png"), width := some 0, relative_width := some (1/2) })
        1080)
      = some 540
  ∧ overlay_scaled_width (apply_watermark (fun _ => true) (VStream.source ("v.mp4"))
        (some { path := some ("wm.png"), width := some 0, relative_width := some (1/2) })
        1080)
      ≠ some (pyInt (0 : ℚ)) := by
  have hA : overlay_scaled_width (apply_watermark (fun _ => true) (VStream.source ("v.mp4"))
      (some { path := some ("wm.png"), width := some 0, relative_width := some (1/2) })
      1080)
      = some (pyInt (((1080 : Int) : ℚ) * (1/2))) := by
    simp [apply_watermark, overlay_scaled_width, scale_width_of,
          show ¬ ((0 : ℚ) < 0) by norm_num, show ¬ ((1 : ℚ) < 1) by norm_num]
  rw [hA, pyInt_half_1080, pyInt_zero]
  exact ⟨rfl, by decide⟩

/-- Claim C7 as amended: the absolute width takes precedence only when it is
a positive number; with a non-positive or absent absolute width, a given
relative width `r` scales the overlay to `int(video_width * r)` pixels. -/
theorem c7_width_amended (fs : String → Bool) (video : VStream) (c : WatermarkCfg)
    (width : Int) (wp : String)
    (hpath : c.path = some wp) (hne : wp ≠ "") (hfs : fs wp = true) :
    (∀ w, c.width = some w → 0 < w →
        overlay_scaled_width (apply_watermark fs video (some c) width) = some (pyInt w))
  ∧ (∀ w r, c.width = some w → ¬ 0 < w → c.relative_width = some r →
        overlay_scaled_width (apply_watermark fs video (some c) width)
          = some (pyInt ((width : ℚ) * r)))
  ∧ (∀ r, c.width = none → c.relative_width = some r →
        overlay_scaled_width (apply_watermark fs video (some c) width)
          = some (pyInt ((width : ℚ) * r))) := by
  refine ⟨?_, ?_, ?_⟩
  · intro w hw hpos
    simp only [apply_watermark, hpath, hne, hfs, hw]
    simp [overlay_scaled_width, scale_width_opacity, scale_width_of, hpos]
  · intro w r hw hpos hr
    simp only [apply_watermark, hpath, hne, hfs, hw, hr]
    simp [overlay_scaled_width, scale_width_opacity, scale_width_of, hpos]
  · intro r hw hr
    simp only [apply_watermark, hpath, hne, hfs, hw, hr]
    simp [overlay_scaled_width, scale_width_opacity, scale_width_of]

/-- Claim C7 witness: `relative_width = 1/2` on a 1080-wide target resolves
to a 540px overlay. -/
theorem c7_width_amended_witness :
    overlay_scaled_width (apply_watermark (fun _ => true) (VStream.source ("v.mp4"))
        (some { path := some ("wm.png"), relative_width := some (1/2) }) 1080)
      = some 540 := by
  have h := (c7_width_amended (fun _ => true) (VStream.source ("v.mp4"))
      { path := some ("wm.png"), relative_width := some (1/2) } 1080 "wm.png"
      rfl (by decide) rfl).2.2 (1/2) rfl rfl
  exact h.trans (by rw [pyInt_half_1080])

/-- Claim C8: with an existing music file the music is looped indefinitely
(`stream_loop = -1`) and scaled by the configured gain (default `0.1`), the
original audio is attenuated by the ducking factor exactly when
`0 < ducking < 1`, and the two streams are mixed with
`duration = "shortest"`. -/
theorem c8_background_music (fs : String → Bool) (audio : AStream) (m : MusicCfg)
    (mp : String) (hpath : m.path = some mp) (hne : mp ≠ "") (hfs : fs mp = true) :
    (∀ d, m.ducking = some d → 0 < d → d < 1 →
        mix_background_audio fs audio (some m) =
          AStream.amix (AStream.volumeF audio d)
            (AStream.volumeF (AStream.inputLoop mp (-1)) (m.volume.getD (1/10)))
            "shortest" 2)
  ∧ (∀ d, m.ducking = some d → ¬ (0 < d ∧ d < 1) →
        mix_background_audio fs audio (some m) =
          AStream.amix audio
            (AStream.volumeF (AStream.inputLoop mp (-1)) (m.volume.getD (1/10)))
            "shortest" 2)
  ∧ (m.ducking = none →
        mix_background_audio fs audio (some m) =
          AStream.amix audio
            (AStream.volumeF (AStream.inputLoop mp (-1)) (m.volume.getD (1/10)))
            "shortest" 2) := by
  refine ⟨?_, ?_, ?_⟩
  · intro d hd h1 h2
    simp [mix_background_audio, hpath, hne, hfs, hd, h1, h2]
  · intro d hd hn
    simp [mix_background_audio, hpath, hne, hfs, hd, hn]
  · intro hd
    simp [mix_background_audio, hpath, hne, hfs, hd]

/-- Claim C8 witness: an existing music file with gain `1/5` and ducking
`4/5` yields the ducked-and-mixed graph. -/
theorem c8_background_music_witness :
    mix_background_audio (fun _ => true) (AStream.source ("v.mp4"))
        (some { path := some ("bgm.mp3"), volume := some (1/5), ducking := some (4/5) })
      = AStream.amix (AStream.volumeF (AStream.source ("v.mp4")) (4/5))
          (AStream.volumeF (AStream.inputLoop ("bgm.mp3") (-1)) (1/5)) "shortest" 2 := by
  have h := (c8_background_music (fun _ => true) (AStream.source ("v.mp4"))
      { path := some ("bgm.mp3"), volume := some (1/5), ducking := some (4/5) } "bgm.mp3"
      rfl (by decide) rfl).1 (4/5) rfl (by norm_num) (by norm_num)
  exact h.trans rfl

/-- Claim C9: a watermark position string outside the five recognized keys,
or an absent position, silently resolves to the top-right coordinates. -/
theorem c9_default_position (fs : String → Bool) (video : VStream) (c : WatermarkCfg)
    (width : Int) (wp : String)
    (hpath : c.path = some wp) (hne : wp ≠ "") (hfs : fs wp = true)
    (hpos : c.position = none
      ∨ ∃ s, c.position = some s ∧ WATERMARK_POSITIONS s = none) :
    overlay_pos (apply_watermark fs video (some c) width) =
      some (coordFormat CoordExpr.wMinusWMargin (pyInt (c.margin.getD 40)),
            coordFormat CoordExpr.margin (pyInt (c.margin.getD 40))) := by
  have htr : WATERMARK_POSITIONS "top-right"
      = some (CoordExpr.wMinusWMargin, CoordExpr.margin) := rfl
  rcases hpos with h | ⟨s, hs, htab⟩
  · simp [apply_watermark, hpath, hne, hfs, h, htr, overlay_pos]
  · simp [apply_watermark, hpath, hne, hfs, hs, htab, overlay_pos]

/-- Claim C9 witness: the unrecognized position string `"middle"` resolves to
the top-right coordinates with the default margin of 40. -/
theorem c9_default_position_witness :
    overlay_pos (apply_watermark (fun _ => true) (VStream.source ("v.mp4"))
        (some { path := some ("wm.png"), position := some ("middle") }) 1080)
      = some ("W-w-40", "40") := by
  have h := c9_default_position (fun _ => true) (VStream.source ("v.mp4"))
      { path := some ("wm.png"), position := some ("middle") } 1080 "wm.png"
      rfl (by decide) rfl (Or.inr ⟨"middle", rfl, rfl⟩)
  exact h.trans (by decide)

/-! ### Error-kind lemmas for the orchestrator stages -/

theorem prepare_segment_error_kind (env : Env) (idx : Nat) (s t : String) (e : PyExc)
    (h : (prepare_segment env idx s t).2 = Except.error e) : isRenderError e = true := by
  unfold prepare_segment at h
  cases hps : env.prepareOutcome idx <;> rw [hps] at h <;> simp at h <;>
    simp [← h, isRenderError]

theorem prepare_all_error_kind (env : Env) (temp_dir : String) (segs : List String)
    (idx : Nat) (e : PyExc)
    (h : (prepare_all env temp_dir segs idx).2 = Except.error e) :
    isRenderError e = true := by
  induction segs generalizing idx with
  | nil => simp [prepare_all] at h
  | cons s rest ih =>
    unfold prepare_all at h
    rcases hps : prepare_segment env idx s temp_dir with ⟨evs, res⟩
    rw [hps] at h
    cases res with
    | error e2 =>
      simp at h
      subst h
      exact prepare_segment_error_kind env idx s temp_dir _ (by rw [hps])
    | ok p =>
      rcases hrec : prepare_all env temp_dir rest (idx + 1) with ⟨evs2, res2⟩
      rw [hrec] at h
      cases res2 with
      | error e2 =>
        simp at h
        subst h
        exact ih (idx + 1) (by rw [hrec])
      | ok ps => simp at h

theorem concat_error_kind (env : Env) (ps : List FPath) (t : String) (i : Nat) (e : PyExc)
    (h : (concat_segments env ps t i).2 = Except.error e) : isRenderError e = true := by
  cases hco : env.concatOutcome <;> simp [concat_segments, hco] at h <;>
    simp [← h, isRenderError]

theorem apply_watermark_raw_ok (fs : String → Bool) (video : VStream)
    (c : Option WatermarkCfgRaw) (w : Int) (hsafe : watermark_stage_safe c = true) :
    ∃ v, apply_watermark_raw fs video c w = Except.ok v := by
  cases c with
  | none => exact ⟨video, rfl⟩
  | some cfg =>
    simp only [watermark_stage_safe, Bool.and_eq_true] at hsafe
    obtain ⟨h1, h2⟩ := hsafe
    unfold apply_watermark_raw
    dsimp only
    cases hp : cfg.path with
    | none => exact ⟨video, rfl⟩
    | some wp =>
      by_cases he : wp = ""
      · exact ⟨video, by simp [he]⟩
      · by_cases hf : fs wp = false
        · exact ⟨video, by simp [he, hf]⟩
        · rcases hm : py_int_of (cfg.margin.getD (PyVal.num 40)) with e | m
          · rw [hm] at h1
            simp at h1
          · rcases ho : cfg.opacity.getD (PyVal.num 1) with q | s
            · simp [he, hf, hm, ho]
            · rw [ho] at h2
              simp at h2

theorem mix_background_audio_raw_ok (fs : String → Bool) (audio : AStream)
    (m : Option MusicCfgRaw) (hsafe : music_stage_safe m = true) :
    ∃ a, mix_background_audio_raw fs audio m = Except.ok a := by
  cases m with
  | none => exact ⟨audio, rfl⟩
  | some cfg =>
    simp only [music_stage_safe] at hsafe
    unfold mix_background_audio_raw
    dsimp only
    cases hp : cfg.path with
    | none => exact ⟨audio, rfl⟩
    | some mp =>
      by_cases he : mp = ""
      · exact ⟨audio, by simp [he]⟩
      · by_cases hf : fs mp = false
        · exact ⟨audio, by simp [he, hf]⟩
        · rcases hm : py_float_of (cfg.volume.getD (PyVal.num (1/10))) with e | v
          · rw [hm] at hsafe
            simp at hsafe
          · simp [he, hf, hm]

theorem final_encode_error_safe (fs : String → Bool) (env : Env) (st : Settings)
    (c : FPath) (o : String) (tw : Int) (lc : Option LoudnessCfg) (e : PyExc)
    (hsafe : settings_stage_safe st = true)
    (h : (final_encode fs env st c o tw lc).2 = Except.error e) :
    e = PyExc.ffmpegLibError "final encode" ∨ e = PyExc.otherError "final encode" := by
  simp only [settings_stage_safe, Bool.and_eq_true] at hsafe
  obtain ⟨v, hv⟩ := apply_watermark_raw_ok fs (VStream.source (fpathStr c))
    st.render_watermark tw hsafe.1
  obtain ⟨a, ha⟩ := mix_background_audio_raw_ok fs
    (ensure_audio (some (AStream.source (fpathStr c))) true)
    st.render_background_music hsafe.2
  unfold final_encode at h
  rw [hv] at h
  dsimp only at h
  rw [ha] at h
  dsimp only at h
  cases hfo : env.finalOutcome <;> rw [hfo] at h <;> simp at h <;> simp [← h]

theorem wrap_acceptable (e : PyExc) :
    acceptable_outcome (Except.error (orchestrator_wrap e)) = true := by
  cases e <;> rfl

theorem wrap_valueError (e : PyExc) (m : String)
    (h : orchestrator_wrap e = PyExc.valueError m) : e = PyExc.valueError m := by
  cases e <;> simp [orchestrator_wrap] at h <;> simp [h]

/-- Claim C6: the concatenator first writes the manifest listing the segment
paths in order, then invokes the stream-copy concat, always attempts to
delete the manifest afterwards (success or failure), and a failing concat
operation surfaces as a `RenderError`-family exception. -/
theorem c6_concat_manifest (env : Env) (segment_paths : List FPath) (temp_dir : String)
    (idx : Nat) :
    (concat_segments env segment_paths temp_dir idx).1.head?
        = some (Event.writeManifest env.manifestPath segment_paths)
  ∧ (concat_segments env segment_paths temp_dir idx).1.get? 1
        = some (Event.runConcat env.manifestPath
            ⟨temp_dir, TempFileName.concatF (env.uuid idx)⟩ ("copy"))
  ∧ (Event.removeManifest env.manifestPath ∈ (concat_segments env segment_paths temp_dir idx).1
      ∨ Event.removeManifestFailed env.manifestPath
          ∈ (concat_segments env segment_paths temp_dir idx).1)
  ∧ (match env.concatOutcome with
     | StageOutcome.success =>
         (concat_segments env segment_paths temp_dir idx).2
           = Except.ok ⟨temp_dir, TempFileName.concatF (env.uuid idx)⟩
     | _ => ∃ e, (concat_segments env segment_paths temp_dir idx).2 = Except.error e
              ∧ isRenderError e = true) := by
  cases hco : env.concatOutcome <;> cases hrm : env.removeManifestOk <;>
    simp [concat_segments, hco, hrm, isRenderError]

/-- Claim C5: when the assembled segment list is empty, `render_videos`
raises the no-valid-videos `ValueError` and the trace shows no media
processing and no file creation at all. -/
theorem c5_empty_input (fs : String → Bool) (env : Env) (video_paths : List String)
    (output_path : String) (vertical : Bool) (fps : Nat) (settingsOpt : Option Settings)
    (h : assemble_segments fs video_paths (settingsOpt.getD {}) = []) :
    (render_videos fs env video_paths output_path vertical fps settingsOpt).2
        = Except.error (PyExc.valueError "Keine gueltigen Videos zum Rendern uebergeben")
  ∧ no_media_processing
      (render_videos fs env video_paths output_path vertical fps settingsOpt).1 = true := by
  have hemp : (assemble_segments fs video_paths (settingsOpt.getD {})).isEmpty = true := by
    rw [h]; rfl
  simp [render_videos, hemp, no_media_processing]

/-- Claim C5 witness: an input list whose single clip does not exist raises
the `ValueError` with an untouched trace. -/
theorem c5_empty_input_witness :
    (render_videos (fun _ => false)
        { uuid := fun _ => "u", prepareOutcome := fun _ => StageOutcome.success,
          concatOutcome := StageOutcome.success, finalOutcome := StageOutcome.success,
          manifestPath := "m", removeOk := fun _ => true, removeManifestOk := true }
        ["missing.mp4"] "out.mp4" true 30 none).2
      = Except.error (PyExc.valueError "Keine gueltigen Videos zum Rendern uebergeben")
  ∧ no_media_processing
      ((render_videos (fun _ => false)
        { uuid := fun _ => "u", prepareOutcome := fun _ => StageOutcome.success,
          concatOutcome := StageOutcome.success, finalOutcome := StageOutcome.success,
          manifestPath := "m", removeOk := fun _ => true, removeManifestOk := true }
        ["missing.mp4"] "out.mp4" true 30 none).1) = true :=
  c5_empty_input (fun _ => false)
    { uuid := fun _ => "u", prepareOutcome := fun _ => StageOutcome.success,
      concatOutcome := StageOutcome.success, finalOutcome := StageOutcome.success,
      manifestPath := "m", removeOk := fun _ => true, removeManifestOk := true }
    ["missing.mp4"] "out.mp4" true 30 none (by decide)

/-- Claim C2, counterexample: with one existing clip and a watermark whose
margin is the string `"40px"`, phases 1-3 succeed and the unguarded
`int(margin)` conversion raises a `ValueError` inside the compositing
stage, which the orchestrator re-raises unwrapped — the caller observes a
`ValueError` although the assembled segment list was non-empty, so the
claimed taxonomy (`ValueError` only for empty input, every other stage
exception wrapped) is false. -/
theorem c2_outcomes_counterexample :
    (render_videos (fun _ => true)
        { uuid := fun i => toString i, prepareOutcome := fun _ => StageOutcome.success,
          concatOutcome := StageOutcome.success, finalOutcome := StageOutcome.success,
          manifestPath := "list.txt", removeOk := fun _ => true, removeManifestOk := true }
        ["a.mp4"] "out.mp4" true 30
        (some { render_watermark := some { path := some ("wm.png"),
                                           margin := some (PyVal.str ("40px")) } })).2
      = Except.error (PyExc.valueError "invalid literal for int() with base 10: 40px")
  ∧ assemble_segments (fun _ => true) ["a.mp4"]
      { render_watermark := some { path := some ("wm.png"),
                                   margin := some (PyVal.str ("40px")) } } ≠ [] :=
  ⟨rfl, by decide⟩

/-- Claim C2 as amended: every terminating run still ends in a returned
output path, a `ValueError`, or a `RenderError`-family exception (a
`TypeError` from a non-numeric opacity and every other non-`ValueError`
stage exception are wrapped at the orchestrator boundary), but a
`ValueError` is not exclusive to the empty-input case: the unguarded
`int(margin)` and `float(volume)` conversions of the compositing stage can
raise `ValueError` with valid segments present, and the orchestrator
re-raises it unwrapped.  When those conversions cannot raise for the given
settings, a `ValueError` does imply an empty assembled segment list. -/
theorem c2_outcomes_amended (fs : String → Bool) (env : Env) (video_paths : List String)
    (output_path : String) (vertical : Bool) (fps : Nat) (settingsOpt : Option Settings) :
    acceptable_outcome
        (render_videos fs env video_paths output_path vertical fps settingsOpt).2 = true
  ∧ (settings_stage_safe (settingsOpt.getD {}) = true →
      ∀ m, (render_videos fs env video_paths output_path vertical fps settingsOpt).2
          = Except.error (PyExc.valueError m) →
        assemble_segments fs video_paths (settingsOpt.getD {}) = []) := by
  simp only [render_videos]
  by_cases hemp : (assemble_segments fs video_paths (settingsOpt.getD {})).isEmpty = true
  · simp only [hemp, if_true]
    exact ⟨rfl, fun hs m hm => List.isEmpty_iff.mp hemp⟩
  · rw [if_neg hemp]
    rcases hP : prepare_all env ((settingsOpt.getD {}).temp_folder.getD "./temp")
        (assemble_segments fs video_paths (settingsOpt.getD {})) 0 with ⟨evsP, resP⟩
    cases resP with
    | error e =>
      have hk : isRenderError e = true :=
        prepare_all_error_kind env _ _ 0 e (by rw [hP])
      refine ⟨wrap_acceptable e, ?_⟩
      intro hs m hm
      have hv := wrap_valueError e m (Except.error.inj hm)
      rw [hv] at hk
      simp [isRenderError] at hk
    | ok prepared =>
      dsimp only
      rcases hC : concat_segments env prepared
          ((settingsOpt.getD {}).temp_folder.getD "./temp")
          (assemble_segments fs video_paths (settingsOpt.getD {})).length with ⟨evsC, resC⟩
      cases resC with
      | error e =>
        have hk : isRenderError e = true := concat_error_kind env _ _ _ e (by rw [hC])
        refine ⟨wrap_acceptable e, ?_⟩
        intro hs m hm
        have hv := wrap_valueError e m (Except.error.inj hm)
        rw [hv] at hk
        simp [isRenderError] at hk
      | ok conc =>
        dsimp only
        rcases hF : final_encode fs env (settingsOpt.getD {}) conc output_path
            (if vertical then VERTICAL_FORMAT else HORIZONTAL_FORMAT).1
            (settingsOpt.getD {}).render_loudness with ⟨evsF, resF⟩
        cases resF with
        | error e =>
          refine ⟨wrap_acceptable e, ?_⟩
          intro hs m hm
          have hk := final_encode_error_safe fs env _ conc output_path _ _ e hs (by rw [hF])
          have hv := wrap_valueError e m (Except.error.inj hm)
          rcases hk with hk | hk <;> rw [hv] at hk <;> exact PyExc.noConfusion hk
        | ok outPath =>
          exact ⟨rfl, fun hs m hm => Except.noConfusion hm⟩

/-- Claim C2 witness: with conversion-safe settings (none at all) and a
missing clip, the outcome is acceptable and the `ValueError` case implies
the empty assembly. -/
theorem c2_outcomes_amended_witness :
    acceptable_outcome
        (render_videos (fun _ => false)
          { uuid := fun _ => "u", prepareOutcome := fun _ => StageOutcome.success,
            concatOutcome := StageOutcome.success, finalOutcome := StageOutcome.success,
            manifestPath := "m", removeOk := fun _ => true, removeManifestOk := true }
          ["gone.mp4"] "out.mp4" true 30 none).2 = true
  ∧ assemble_segments (fun _ => false) ["gone.mp4"] ((none : Option Settings).getD {}) = [] :=
  ⟨(c2_outcomes_amended (fun _ => false)
      { uuid := fun _ => "u", prepareOutcome := fun _ => StageOutcome.success,
        concatOutcome := StageOutcome.success, finalOutcome := StageOutcome.success,
        manifestPath := "m", removeOk := fun _ => true, removeManifestOk := true }
      ["gone.mp4"] "out.mp4" true 30 none).1,
   (c2_outcomes_amended (fun _ => false)
      { uuid := fun _ => "u", prepareOutcome := fun _ => StageOutcome.success,
        concatOutcome := StageOutcome.success, finalOutcome := StageOutcome.success,
        manifestPath := "m", removeOk := fun _ => true, removeManifestOk := true }
      ["gone.mp4"] "out.mp4" true 30 none).2
     rfl "Keine gueltigen Videos zum Rendern uebergeben" rfl⟩

/-! ### Trace lemmas for the cleanup and temp-file claims -/

theorem mem_createdFiles (tr : List Event) (p : FPath) :
    p ∈ createdFiles tr ↔ Event.createFile p ∈ tr := by
  unfold createdFiles
  rw [List.mem_filterMap]
  constructor
  · rintro ⟨e, he, hfe⟩
    cases e <;> simp at hfe
    cases hfe
    exact he
  · intro h
    exact ⟨Event.createFile p, h, rfl⟩

theorem createdFiles_append (a b : List Event) :
    createdFiles (a ++ b) = createdFiles a ++ createdFiles b := by
  simp [createdFiles, List.filterMap_append]

theorem createFile_not_mem_cleanup (env : Env) (prepared : List FPath)
    (conc : Option FPath) (p : FPath) :
    Event.createFile p ∉ cleanup_events env prepared conc := by
  intro h
  unfold cleanup_events at h
  rcases List.mem_append.mp h with h | h
  · rcases List.mem_map.mp h with ⟨q, hq, hqe⟩
    cases hro : env.removeOk q <;> rw [hro] at hqe <;> simp at hqe
  · cases conc with
    | none => simp at h
    | some c =>
      simp at h
      cases hro : env.removeOk c <;> rw [hro] at h <;> simp at h

theorem removal_mem_cleanup (env : Env) (prepared : List FPath) (conc : Option FPath)
    (p : FPath) (hp : p ∈ prepared) :
    Event.removeFile p ∈ cleanup_events env prepared conc
  ∨ Event.removeFailed p ∈ cleanup_events env prepared conc := by
  unfold cleanup_events
  cases hro : env.removeOk p
  · right
    exact List.mem_append_left _ (List.mem_map.mpr ⟨p, hp, by simp [hro]⟩)
  · left
    exact List.mem_append_left _ (List.mem_map.mpr ⟨p, hp, by simp [hro]⟩)

theorem removal_conc_mem_cleanup (env : Env) (prepared : List FPath) (c : FPath) :
    Event.removeFile c ∈ cleanup_events env prepared (some c)
  ∨ Event.removeFailed c ∈ cleanup_events env prepared (some c) := by
  unfold cleanup_events
  cases hro : env.removeOk c
  · right
    apply List.mem_append_right
    simp [hro]
  · left
    apply List.mem_append_right
    simp [hro]

theorem prepare_all_ok (env : Env) (t : String) (segs : List String) (idx : Nat)
    (evs : List Event) (ps : List FPath)
    (h : prepare_all env t segs idx = (evs, Except.ok ps)) :
    ps = (List.range' idx segs.length).map
        (fun i => (⟨t, TempFileName.segment (env.uuid i)⟩ : FPath))
  ∧ createdFiles evs = ps := by
  induction segs generalizing idx evs ps with
  | nil =>
    simp [prepare_all] at h
    obtain ⟨h1, h2⟩ := h
    subst h1
    subst h2
    simp [createdFiles]
  | cons s rest ih =>
    unfold prepare_all prepare_segment at h
    cases hps : env.prepareOutcome idx with
    | success =>
      rw [hps] at h
      dsimp only at h
      rcases hrec : prepare_all env t rest (idx + 1) with ⟨evs2, res2⟩
      rw [hrec] at h
      cases res2 with
      | error e2 => simp at h
      | ok ps2 =>
        dsimp only at h
        injection h with h1 h2
        injection h2 with h2
        obtain ⟨hps2, hcf2⟩ := ih (idx + 1) evs2 ps2 hrec
        subst h1
        subst h2
        constructor
        · rw [List.length_cons, List.range'_succ, List.map_cons, hps2]
        · rw [createdFiles_append, hcf2]
          simp [createdFiles]
    | ffmpegError =>
      rw [hps] at h
      simp at h
    | otherError =>
      rw [hps] at h
      simp at h

theorem prepare_all_no_error (env : Env) (t : String) (segs : List String) (idx : Nat)
    (hprep : ∀ i, env.prepareOutcome i = StageOutcome.success) (e : PyExc)
    (h : (prepare_all env t segs idx).2 = Except.error e) : False := by
  induction segs generalizing idx with
  | nil => simp [prepare_all] at h
  | cons s rest ih =>
    unfold prepare_all prepare_segment at h
    rw [hprep idx] at h
    dsimp only at h
    rcases hrec : prepare_all env t rest (idx + 1) with ⟨evs2, res2⟩
    rw [hrec] at h
    cases res2 with
    | error e2 =>
      dsimp only at h
      exact ih (idx + 1) (by rw [hrec]; exact h)
    | ok ps2 => simp at h

theorem concat_ok_created (env : Env) (ps : List FPath) (t : String) (i : Nat)
    (evs : List Event) (c : FPath)
    (h : concat_segments env ps t i = (evs, Except.ok c)) (p : FPath)
    (hp : Event.createFile p ∈ evs) : p = c := by
  cases hco : env.concatOutcome <;> cases hrm : env.removeManifestOk <;>
      simp [concat_segments, hco, hrm] at h
  all_goals
    obtain ⟨h1, h2⟩ := h
    rw [← h1] at hp
    simp at hp
    rw [hp, ← h2]

theorem concat_error_no_createFile (env : Env) (ps : List FPath) (t : String) (i : Nat)
    (evs : List Event) (e : PyExc)
    (h : concat_segments env ps t i = (evs, Except.error e)) (p : FPath) :
    Event.createFile p ∉ evs := by
  cases hco : env.concatOutcome <;> cases hrm : env.removeManifestOk <;>
      simp [concat_segments, hco, hrm] at h
  all_goals
    obtain ⟨h1, h2⟩ := h
    rw [← h1]
    simp

theorem final_no_createFile (fs : String → Bool) (env : Env) (st : Settings)
    (c : FPath) (o : String) (tw : Int) (lc : Option LoudnessCfg) (p : FPath) :
    Event.createFile p ∉ (final_encode fs env st c o tw lc).1 := by
  unfold final_encode
  rcases hv : apply_watermark_raw fs (VStream.source (fpathStr c))
      st.render_watermark tw with e | video
  · simp
  · dsimp only
    rcases ha : mix_background_audio_raw fs
        (ensure_audio (some (AStream.source (fpathStr c))) true)
        st.render_background_music with e | a1
    · simp
    · dsimp only
      cases hfo : env.finalOutcome <;> simp [hfo]

theorem cleanup_complete_of (tr : List Event)
    (h : ∀ p, Event.createFile p ∈ tr →
      Event.removeFile p ∈ tr ∨ Event.removeFailed p ∈ tr) :
    cleanup_complete tr = true := by
  unfold cleanup_complete
  rw [List.all_eq_true]
  intro e he
  cases e
  case createFile p =>
    rw [List.any_eq_true]
    rcases h p he with h2 | h2
    · exact ⟨Event.removeFile p, h2, by simp⟩
    · exact ⟨Event.removeFailed p, h2, by simp⟩
  all_goals rfl

theorem prepare_segment_env_indep (env : Env) (f : FPath → Bool) (b : Bool)
    (i : Nat) (s t : String) :
    prepare_segment { env with removeOk := f, removeManifestOk := b } i s t
      = prepare_segment env i s t := rfl

theorem prepare_all_env_indep (env : Env) (f : FPath → Bool) (b : Bool)
    (t : String) (segs : List String) (idx : Nat) :
    prepare_all { env with removeOk := f, removeManifestOk := b } t segs idx
      = prepare_all env t segs idx := by
  induction segs generalizing idx with
  | nil => rfl
  | cons s rest ih =>
    simp only [prepare_all, prepare_segment_env_indep, ih]

theorem concat_env_indep_res (env : Env) (f : FPath → Bool) (b : Bool)
    (ps : List FPath) (t : String) (i : Nat) :
    (concat_segments { env with removeOk := f, removeManifestOk := b } ps t i).2
      = (concat_segments env ps t i).2 := by
  cases hco : env.concatOutcome <;> simp [concat_segments, hco]

theorem final_encode_env_indep (fs : String → Bool) (env : Env) (f : FPath → Bool)
    (b : Bool) (st : Settings) (c : FPath) (o : String) (tw : Int)
    (lc : Option LoudnessCfg) :
    final_encode fs { env with removeOk := f, removeManifestOk := b } st c o tw lc
      = final_encode fs env st c o tw lc := rfl

/-- Claim C1, counterexample: when normalization of the second segment fails
after the first was prepared, the cleanup block is never reached and the
first prepared segment file is not deleted before control returns, so the
claimed cleanup guarantee does not cover failures during the normalization
stage. -/
theorem c1_cleanup_counterexample :
    cleanup_complete
      (render_videos (fun _ => true)
        { uuid := fun i => toString i,
          prepareOutcome := fun i => if i = 0 then StageOutcome.success else StageOutcome.ffmpegError,
          concatOutcome := StageOutcome.success, finalOutcome := StageOutcome.success,
          manifestPath := "list.txt", removeOk := fun _ => true, removeManifestOk := true }
        ["a.mp4", "b.mp4"] "out.mp4" true 30 none).1 = false := by
  decide

/-- Claim C1 as amended: whenever the normalization stage completes (all
`_prepare_segment` invocations succeed), every prepared segment and the
concatenated intermediate created during the job have a deletion attempt in
the trace before control returns — on success and on concatenation,
compositing or final-encoding failure alike — and the run's result never
depends on whether those deletions succeed.  (When a normalization fails
partway, segments prepared earlier are not deleted.) -/
theorem c1_cleanup_amended (fs : String → Bool) (env : Env) (video_paths : List String)
    (output_path : String) (vertical : Bool) (fps : Nat) (settingsOpt : Option Settings)
    (hprep : ∀ i, env.prepareOutcome i = StageOutcome.success) :
    cleanup_complete
        (render_videos fs env video_paths output_path vertical fps settingsOpt).1 = true
  ∧ ∀ f b, (render_videos fs { env with removeOk := f, removeManifestOk := b }
        video_paths output_path vertical fps settingsOpt).2
      = (render_videos fs env video_paths output_path vertical fps settingsOpt).2 := by
  constructor
  · apply cleanup_complete_of
    simp only [render_videos]
    by_cases hemp : (assemble_segments fs video_paths (settingsOpt.getD {})).isEmpty = true
    · simp only [hemp, if_true]
      intro p hp
      simp at hp
    · rw [if_neg hemp]
      rcases hP : prepare_all env ((settingsOpt.getD {}).temp_folder.getD "./temp")
          (assemble_segments fs video_paths (settingsOpt.getD {})) 0 with ⟨evsP, resP⟩
      cases resP with
      | error e =>
        exact (prepare_all_no_error env _ _ 0 hprep e (by rw [hP])).elim
      | ok prepared =>
        dsimp only
        have hcreatedP : createdFiles evsP = prepared :=
          (prepare_all_ok env _ _ 0 evsP prepared hP).2
        rcases hC : concat_segments env prepared
            ((settingsOpt.getD {}).temp_folder.getD "./temp")
            (assemble_segments fs video_paths (settingsOpt.getD {})).length with ⟨evsC, resC⟩
        cases resC with
        | error e =>
          intro p hp
          rcases List.mem_cons.mp hp with h | h
          · exact absurd h (by simp)
          rcases List.mem_append.mp h with h | h
          · rcases List.mem_append.mp h with h | h
            · have hpm : p ∈ prepared :=
                hcreatedP ▸ ((mem_createdFiles evsP p).mpr h)
              rcases removal_mem_cleanup env prepared none p hpm with hr | hr
              · exact Or.inl (List.mem_cons_of_mem _ (List.mem_append_right _ hr))
              · exact Or.inr (List.mem_cons_of_mem _ (List.mem_append_right _ hr))
            · exact absurd h (concat_error_no_createFile env prepared _ _ evsC e hC p)
          · exact absurd h (createFile_not_mem_cleanup env prepared none p)
        | ok conc =>
          dsimp only
          rcases hF : final_encode fs env (settingsOpt.getD {}) conc output_path
              (if vertical then VERTICAL_FORMAT else HORIZONTAL_FORMAT).1
              (settingsOpt.getD {}).render_loudness with ⟨evsF, resF⟩
          have hnoF : ∀ p, Event.createFile p ∉ evsF := by
            intro p
            have := final_no_createFile fs env (settingsOpt.getD {}) conc output_path
              (if vertical then VERTICAL_FORMAT else HORIZONTAL_FORMAT).1
              (settingsOpt.getD {}).render_loudness p
            rw [hF] at this
            exact this
          cases resF with
          | error e =>
            intro p hp
            rcases List.mem_cons.mp hp with h | h
            · exact absurd h (by simp)
            rcases List.mem_append.mp h with h | h
            · rcases List.mem_append.mp h with h | h
              · rcases List.mem_append.mp h with h | h
                · have hpm : p ∈ prepared :=
                    hcreatedP ▸ ((mem_createdFiles evsP p).mpr h)
                  rcases removal_mem_cleanup env prepared (some conc) p hpm with hr | hr
                  · exact Or.inl (List.mem_cons_of_mem _ (List.mem_append_right _ hr))
                  · exact Or.inr (List.mem_cons_of_mem _ (List.mem_append_right _ hr))
                · have hpc : p = conc := concat_ok_created env prepared _ _ evsC conc hC p h
                  subst hpc
                  rcases removal_conc_mem_cleanup env prepared p with hr | hr
                  · exact Or.inl (List.mem_cons_of_mem _ (List.mem_append_right _ hr))
                  · exact Or.inr (List.mem_cons_of_mem _ (List.mem_append_right _ hr))
              · exact absurd h (hnoF p)
            · exact absurd h (createFile_not_mem_cleanup env prepared (some conc) p)
          | ok outPath =>
            intro p hp
            rcases List.mem_cons.mp hp with h | h
            · exact absurd h (by simp)
            rcases List.mem_append.mp h with h | h
            · rcases List.mem_append.mp h with h | h
              · rcases List.mem_append.mp h with h | h
                · have hpm : p ∈ prepared :=
                    hcreatedP ▸ ((mem_createdFiles evsP p).mpr h)
                  rcases removal_mem_cleanup env prepared (some conc) p hpm with hr | hr
                  · exact Or.inl (List.mem_cons_of_mem _ (List.mem_append_right _ hr))
                  · exact Or.inr (List.mem_cons_of_mem _ (List.mem_append_right _ hr))
                · have hpc : p = conc := concat_ok_created env prepared _ _ evsC conc hC p h
                  subst hpc
                  rcases removal_conc_mem_cleanup env prepared p with hr | hr
                  · exact Or.inl (List.mem_cons_of_mem _ (List.mem_append_right _ hr))
                  · exact Or.inr (List.mem_cons_of_mem _ (List.mem_append_right _ hr))
              · exact absurd h (hnoF p)
            · exact absurd h (createFile_not_mem_cleanup env prepared (some conc) p)
  · intro f b
    simp only [render_videos]
    by_cases hemp : (assemble_segments fs video_paths (settingsOpt.getD {})).isEmpty = true
    · simp [hemp]
    · simp only [if_neg hemp]
      rw [prepare_all_env_indep]
      rcases hP : prepare_all env ((settingsOpt.getD {}).temp_folder.getD "./temp")
          (assemble_segments fs video_paths (settingsOpt.getD {})) 0 with ⟨evsP, resP⟩
      cases resP with
      | error e => rfl
      | ok prepared =>
        dsimp only
        have hres := concat_env_indep_res env f b prepared
            ((settingsOpt.getD {}).temp_folder.getD "./temp")
            (assemble_segments fs video_paths (settingsOpt.getD {})).length
        rcases hC : concat_segments env prepared
            ((settingsOpt.getD {}).temp_folder.getD "./temp")
            (assemble_segments fs video_paths (settingsOpt.getD {})).length with ⟨evsC, resC⟩
        rcases hC2 : concat_segments { env with removeOk := f, removeManifestOk := b } prepared
            ((settingsOpt.getD {}).temp_folder.getD "./temp")
            (assemble_segments fs video_paths (settingsOpt.getD {})).length with ⟨evsC2, resC2⟩
        rw [hC, hC2] at hres
        dsimp only at hres
        rw [hres]
        cases resC with
        | error e => rfl
        | ok conc =>
          dsimp only
          rw [final_encode_env_indep]
          rcases hF : final_encode fs env (settingsOpt.getD {}) conc output_path
              (if vertical then VERTICAL_FORMAT else HORIZONTAL_FORMAT).1
              (settingsOpt.getD {}).render_loudness with ⟨evsF, resF⟩
          cases resF with
          | error e => rfl
          | ok outPath => rfl

/-- Claim C1 witness: a concrete two-clip run whose normalizations all
succeed has a complete cleanup, and its result is unchanged when every
deletion fails. -/
theorem c1_cleanup_amended_witness :
    cleanup_complete
        (render_videos (fun _ => true)
          { uuid := fun i => toString i, prepareOutcome := fun _ => StageOutcome.success,
            concatOutcome := StageOutcome.success, finalOutcome := StageOutcome.success,
            manifestPath := "list.txt", removeOk := fun _ => true, removeManifestOk := true }
          ["a.mp4", "b.mp4"] "out.mp4" true 30 none).1 = true
  ∧ (render_videos (fun _ => true)
        { uuid := fun i => toString i, prepareOutcome := fun _ => StageOutcome.success,
          concatOutcome := StageOutcome.success, finalOutcome := StageOutcome.success,
          manifestPath := "list.txt",
          removeOk := fun _ => false, removeManifestOk := false }
        ["a.mp4", "b.mp4"] "out.mp4" true 30 none).2
      = (render_videos (fun _ => true)
          { uuid := fun i => toString i, prepareOutcome := fun _ => StageOutcome.success,
            concatOutcome := StageOutcome.success, finalOutcome := StageOutcome.success,
            manifestPath := "list.txt", removeOk := fun _ => true, removeManifestOk := true }
          ["a.mp4", "b.mp4"] "out.mp4" true 30 none).2 :=
  ⟨(c1_cleanup_amended (fun _ => true)
      { uuid := fun i => toString i, prepareOutcome := fun _ => StageOutcome.success,
        concatOutcome := StageOutcome.success, finalOutcome := StageOutcome.success,
        manifestPath := "list.txt", removeOk := fun _ => true, removeManifestOk := true }
      ["a.mp4", "b.mp4"] "out.mp4" true 30 none (fun i => rfl)).1,
   (c1_cleanup_amended (fun _ => true)
      { uuid := fun i => toString i, prepareOutcome := fun _ => StageOutcome.success,
        concatOutcome := StageOutcome.success, finalOutcome := StageOutcome.success,
        manifestPath := "list.txt", removeOk := fun _ => true, removeManifestOk := true }
      ["a.mp4", "b.mp4"] "out.mp4" true 30 none (fun i => rfl)).2
     (fun _ => false) false⟩

theorem prepare_all_created (env : Env) (t : String) (segs : List String) (idx : Nat) :
    ∃ k, k ≤ segs.length ∧
      createdFiles (prepare_all env t segs idx).1 =
        (List.range' idx k).map
          (fun i => (⟨t, TempFileName.segment (env.uuid i)⟩ : FPath)) := by
  induction segs generalizing idx with
  | nil => exact ⟨0, Nat.le_refl 0, by simp [prepare_all, createdFiles]⟩
  | cons s rest ih =>
    cases hps : env.prepareOutcome idx with
    | success =>
      obtain ⟨k, hk, hcf⟩ := ih (idx + 1)
      refine ⟨k + 1, Nat.succ_le_succ hk, ?_⟩
      rcases hrec : prepare_all env t rest (idx + 1) with ⟨evs2, res2⟩
      rw [hrec] at hcf
      have htr : (prepare_all env t (s :: rest) idx).1 =
          [Event.mkdirP t,
           Event.ffmpegRunPrepare s ⟨t, TempFileName.segment (env.uuid idx)⟩,
           Event.createFile ⟨t, TempFileName.segment (env.uuid idx)⟩] ++ evs2 := by
        unfold prepare_all prepare_segment
        rw [hps, hrec]
        cases res2 <;> rfl
      rw [htr, createdFiles_append, List.range'_succ, List.map_cons, ← hcf]
      simp [createdFiles]
    | ffmpegError =>
      refine ⟨0, Nat.zero_le _, ?_⟩
      have htr : (prepare_all env t (s :: rest) idx).1 =
          [Event.mkdirP t,
           Event.ffmpegRunPrepare s ⟨t, TempFileName.segment (env.uuid idx)⟩] := by
        unfold prepare_all prepare_segment
        rw [hps]
      rw [htr]
      simp [createdFiles]
    | otherError =>
      refine ⟨0, Nat.zero_le _, ?_⟩
      have htr : (prepare_all env t (s :: rest) idx).1 = [Event.mkdirP t] := by
        unfold prepare_all prepare_segment
        rw [hps]
      rw [htr]
      simp [createdFiles]

theorem mkdirP_mem_prepare_all (env : Env) (t : String) (s : String)
    (rest : List String) (idx : Nat) :
    Event.mkdirP t ∈ (prepare_all env t (s :: rest) idx).1 := by
  unfold prepare_all prepare_segment
  cases hps : env.prepareOutcome idx with
  | success =>
    dsimp only
    rcases hrec : prepare_all env t rest (idx + 1) with ⟨evs2, res2⟩
    cases res2 <;> simp
  | ffmpegError => simp
  | otherError => simp

theorem concat_ok_createdFiles (env : Env) (ps : List FPath) (t : String) (i : Nat)
    (evs : List Event) (c : FPath)
    (h : concat_segments env ps t i = (evs, Except.ok c)) :
    createdFiles evs = [c] ∧ c = ⟨t, TempFileName.concatF (env.uuid i)⟩ := by
  cases hco : env.concatOutcome <;> cases hrm : env.removeManifestOk <;>
      simp [concat_segments, hco, hrm] at h
  all_goals
    obtain ⟨h1, h2⟩ := h
    refine ⟨?_, ?_⟩
    · rw [← h1, ← h2]
      simp [createdFiles]
    · rw [← h2]

theorem concat_error_createdFiles (env : Env) (ps : List FPath) (t : String) (i : Nat)
    (evs : List Event) (e : PyExc)
    (h : concat_segments env ps t i = (evs, Except.error e)) :
    createdFiles evs = [] := by
  rw [List.eq_nil_iff_forall_not_mem]
  intro p hp
  exact concat_error_no_createFile env ps t i evs e h p ((mem_createdFiles evs p).mp hp)

theorem final_createdFiles (fs : String → Bool) (env : Env) (st : Settings)
    (c : FPath) (o : String) (tw : Int) (lc : Option LoudnessCfg) :
    createdFiles (final_encode fs env st c o tw lc).1 = [] := by
  unfold final_encode
  rcases hv : apply_watermark_raw fs (VStream.source (fpathStr c))
      st.render_watermark tw with e | video
  · simp [createdFiles]
  · dsimp only
    rcases ha : mix_background_audio_raw fs
        (ensure_audio (some (AStream.source (fpathStr c))) true)
        st.render_background_music with e | a1
    · simp [createdFiles]
    · dsimp only
      cases hfo : env.finalOutcome <;> simp [hfo, createdFiles]

theorem cleanup_createdFiles (env : Env) (prepared : List FPath) (conc : Option FPath) :
    createdFiles (cleanup_events env prepared conc) = [] := by
  rw [List.eq_nil_iff_forall_not_mem]
  intro p hp
  exact createFile_not_mem_cleanup env prepared conc p ((mem_createdFiles _ p).mp hp)

theorem temp_files_ok_of (env : Env) (bound : Nat) (tr : List Event)
    (h : ∀ p ∈ createdFiles tr, p.dir = "./temp" ∧
        ∃ i, i ∈ List.range (bound + 1) ∧
          (p.name = TempFileName.segment (env.uuid i)
            ∨ p.name = TempFileName.concatF (env.uuid i))) :
    temp_files_ok env bound tr = true := by
  unfold temp_files_ok
  rw [List.all_eq_true]
  intro e he
  cases e
  case createFile p =>
    obtain ⟨hdir, i, hi, hname⟩ := h p ((mem_createdFiles tr p).mpr he)
    rw [Bool.and_eq_true]
    constructor
    · simp [hdir]
    · rw [List.any_eq_true]
      refine ⟨i, hi, ?_⟩
      rcases hname with hn | hn <;> simp [hn]
  all_goals rfl

theorem nodup_segmap (env : Env) (t : String) (k n : Nat) (hk : k ≤ n)
    (hinj : ∀ i ∈ List.range (n + 1), ∀ j ∈ List.range (n + 1),
      env.uuid i = env.uuid j → i = j) :
    ((List.range' 0 k).map
      (fun i => (⟨t, TempFileName.segment (env.uuid i)⟩ : FPath))).Nodup := by
  refine List.Nodup.map_on ?_ (List.nodup_range' 0 k)
  intro x hx y hy hxy
  have hx2 : x < k := by
    have := List.mem_range'_1.mp hx
    omega
  have hy2 : y < k := by
    have := List.mem_range'_1.mp hy
    omega
  simp only [FPath.mk.injEq, TempFileName.segment.injEq] at hxy
  exact hinj x (List.mem_range.mpr (by omega)) y (List.mem_range.mpr (by omega)) hxy.2

theorem createdFiles_cons_mkdirParent (o : String) (tr : List Event) :
    createdFiles (Event.mkdirParent o :: tr) = createdFiles tr := by
  simp [createdFiles]

/-- Claim C10: without a `temp_folder` setting, every temporary artifact
(prepared segment or concatenated intermediate) of a run is created under
`./temp`, which is created on demand whenever segments exist; with pairwise
distinct uuid identifiers all temporary file names are pairwise distinct,
each embedding one fresh identifier of the uuid stream. -/
theorem c10_temp_files (fs : String → Bool) (env : Env) (video_paths : List String)
    (output_path : String) (vertical : Bool) (fps : Nat) (settingsOpt : Option Settings)
    (htemp : (settingsOpt.getD {}).temp_folder = none)
    (hinj : ∀ i ∈ List.range
        ((assemble_segments fs video_paths (settingsOpt.getD {})).length + 1),
      ∀ j ∈ List.range
        ((assemble_segments fs video_paths (settingsOpt.getD {})).length + 1),
      env.uuid i = env.uuid j → i = j) :
    temp_files_ok env (assemble_segments fs video_paths (settingsOpt.getD {})).length
        (render_videos fs env video_paths output_path vertical fps settingsOpt).1 = true
  ∧ (createdFiles
        (render_videos fs env video_paths output_path vertical fps settingsOpt).1).Nodup
  ∧ (assemble_segments fs video_paths (settingsOpt.getD {}) ≠ [] →
      Event.mkdirP "./temp"
        ∈ (render_videos fs env video_paths output_path vertical fps settingsOpt).1) := by
  have htd : (settingsOpt.getD {}).temp_folder.getD "./temp" = "./temp" := by
    rw [htemp]
    rfl
  simp only [render_videos]
  by_cases hemp : (assemble_segments fs video_paths (settingsOpt.getD {})).isEmpty = true
  · simp only [hemp, if_true]
    refine ⟨?_, ?_, ?_⟩
    · apply temp_files_ok_of
      intro p hp
      simp [createdFiles] at hp
    · simp [createdFiles]
    · intro hne
      exact absurd (List.isEmpty_iff.mp hemp) hne
  · rw [if_neg hemp, htd]
    obtain ⟨s0, rest0, hraw⟩ : ∃ s rest,
        assemble_segments fs video_paths (settingsOpt.getD {}) = s :: rest := by
      cases hr : assemble_segments fs video_paths (settingsOpt.getD {}) with
      | nil => rw [hr] at hemp; exact absurd rfl hemp
      | cons a l => exact ⟨a, l, rfl⟩
    rcases hP : prepare_all env "./temp"
        (assemble_segments fs video_paths (settingsOpt.getD {})) 0 with ⟨evsP, resP⟩
    have hmk : Event.mkdirP "./temp" ∈ evsP := by
      have hmm := mkdirP_mem_prepare_all env "./temp" s0 rest0 0
      rw [← hraw, hP] at hmm
      exact hmm
    cases resP with
    | error e =>
      obtain ⟨k, hk, hcfP⟩ := prepare_all_created env "./temp"
          (assemble_segments fs video_paths (settingsOpt.getD {})) 0
      rw [hP] at hcfP
      dsimp only at hcfP
      refine ⟨?_, ?_, ?_⟩
      · apply temp_files_ok_of
        intro p hp
        rw [createdFiles_cons_mkdirParent, hcfP] at hp
        obtain ⟨i, hi, rfl⟩ := List.mem_map.mp hp
        have hik : i < k := by
          have := List.mem_range'_1.mp hi
          omega
        exact ⟨rfl, i, List.mem_range.mpr (by omega), Or.inl rfl⟩
      · rw [createdFiles_cons_mkdirParent, hcfP]
        exact nodup_segmap env "./temp" k _ hk hinj
      · intro hne
        exact List.mem_cons_of_mem _ hmk
    | ok prepared =>
      obtain ⟨hprepared, hcfP2⟩ := prepare_all_ok env "./temp"
          (assemble_segments fs video_paths (settingsOpt.getD {})) 0 evsP prepared hP
      dsimp only
      rcases hC : concat_segments env prepared "./temp"
          (assemble_segments fs video_paths (settingsOpt.getD {})).length with ⟨evsC, resC⟩
      cases resC with
      | error e =>
        have hC1 : createdFiles evsC = [] :=
          concat_error_createdFiles env prepared "./temp" _ evsC e hC
        have hcftr : createdFiles (Event.mkdirParent output_path ::
            (evsP ++ evsC ++ cleanup_events env prepared none)) = createdFiles evsP := by
          simp [createdFiles_cons_mkdirParent, createdFiles_append, hC1,
            cleanup_createdFiles]
        refine ⟨?_, ?_, ?_⟩
        · apply temp_files_ok_of
          intro p hp
          rw [hcftr, hcfP2, hprepared] at hp
          obtain ⟨i, hi, rfl⟩ := List.mem_map.mp hp
          have hik : i < (assemble_segments fs video_paths (settingsOpt.getD {})).length := by
            have := List.mem_range'_1.mp hi
            omega
          exact ⟨rfl, i, List.mem_range.mpr (by omega), Or.inl rfl⟩
        · rw [hcftr, hcfP2, hprepared]
          exact nodup_segmap env "./temp" _ _ (Nat.le_refl _) hinj
        · intro hne
          exact List.mem_cons_of_mem _ (List.mem_append_left _ (List.mem_append_left _ hmk))
      | ok conc =>
        obtain ⟨hCcf, hcval⟩ := concat_ok_createdFiles env prepared "./temp" _ evsC conc hC
        dsimp only
        rcases hF : final_encode fs env (settingsOpt.getD {}) conc output_path
            (if vertical then VERTICAL_FORMAT else HORIZONTAL_FORMAT).1
            (settingsOpt.getD {}).render_loudness with ⟨evsF, resF⟩
        have hFcf : createdFiles evsF = [] := by
          have hzz := final_createdFiles fs env (settingsOpt.getD {}) conc output_path
            (if vertical then VERTICAL_FORMAT else HORIZONTAL_FORMAT).1
            (settingsOpt.getD {}).render_loudness
          rw [hF] at hzz
          exact hzz
        have hcommon : ∀ tr2 : List Event,
            createdFiles tr2 = createdFiles evsP ++ [conc] →
            temp_files_ok env
                (assemble_segments fs video_paths (settingsOpt.getD {})).length tr2 = true
          ∧ (createdFiles tr2).Nodup := by
          intro tr2 hcftr
          constructor
          · apply temp_files_ok_of
            intro p hp
            rw [hcftr] at hp
            rcases List.mem_append.mp hp with h | h
            · rw [hcfP2, hprepared] at h
              obtain ⟨i, hi, rfl⟩ := List.mem_map.mp h
              have hik : i < (assemble_segments fs video_paths (settingsOpt.getD {})).length := by
                have := List.mem_range'_1.mp hi
                omega
              exact ⟨rfl, i, List.mem_range.mpr (by omega), Or.inl rfl⟩
            · rw [List.mem_singleton] at h
              refine ⟨by rw [h, hcval],
                (assemble_segments fs video_paths (settingsOpt.getD {})).length,
                List.mem_range.mpr (by omega), Or.inr (by rw [h, hcval])⟩
          · rw [hcftr, List.nodup_append]
            refine ⟨?_, List.nodup_singleton _, ?_⟩
            · rw [hcfP2, hprepared]
              exact nodup_segmap env "./temp" _ _ (Nat.le_refl _) hinj
            · intro a ha hb
              rw [List.mem_singleton] at hb
              rw [hcfP2, hprepared] at ha
              obtain ⟨i, hi, rfl⟩ := List.mem_map.mp ha
              rw [hcval] at hb
              simp at hb
        cases resF with
        | error e =>
          obtain ⟨hok1, hok2⟩ := hcommon
            (Event.mkdirParent output_path ::
              (evsP ++ evsC ++ evsF ++ cleanup_events env prepared (some conc)))
            (by simp [createdFiles_cons_mkdirParent, createdFiles_append, hCcf, hFcf,
              cleanup_createdFiles])
          refine ⟨hok1, hok2, ?_⟩
          intro hne
          exact List.mem_cons_of_mem _
            (List.mem_append_left _ (List.mem_append_left _ (List.mem_append_left _ hmk)))
        | ok outPath =>
          obtain ⟨hok1, hok2⟩ := hcommon
            (Event.mkdirParent output_path ::
              (evsP ++ evsC ++ evsF ++ cleanup_events env prepared (some conc)))
            (by simp [createdFiles_cons_mkdirParent, createdFiles_append, hCcf, hFcf,
              cleanup_createdFiles])
          refine ⟨hok1, hok2, ?_⟩
          intro hne
          exact List.mem_cons_of_mem _
            (List.mem_append_left _ (List.mem_append_left _ (List.mem_append_left _ hmk)))

/-- Claim C10 witness: a one-clip run with default settings keeps all
temporary artifacts in `./temp` with distinct uuid-derived names and creates
`./temp` on demand. -/
theorem c10_temp_files_witness :
    temp_files_ok
        { uuid := fun i => toString i, prepareOutcome := fun _ => StageOutcome.success,
          concatOutcome := StageOutcome.success, finalOutcome := StageOutcome.success,
          manifestPath := "list.txt", removeOk := fun _ => true, removeManifestOk := true }
        (assemble_segments (fun _ => true) ["a.mp4"] ((none : Option Settings).getD {})).length
        (render_videos (fun _ => true)
          { uuid := fun i => toString i, prepareOutcome := fun _ => StageOutcome.success,
            concatOutcome := StageOutcome.success, finalOutcome := StageOutcome.success,
            manifestPath := "list.txt", removeOk := fun _ => true, removeManifestOk := true }
          ["a.mp4"] "out.mp4" true 30 none).1 = true
  ∧ (createdFiles
        (render_videos (fun _ => true)
          { uuid := fun i => toString i, prepareOutcome := fun _ => StageOutcome.success,
            concatOutcome := StageOutcome.success, finalOutcome := StageOutcome.success,
            manifestPath := "list.txt", removeOk := fun _ => true, removeManifestOk := true }
          ["a.mp4"] "out.mp4" true 30 none).1).Nodup
  ∧ Event.mkdirP "./temp"
      ∈ (render_videos (fun _ => true)
          { uuid := fun i => toString i, prepareOutcome := fun _ => StageOutcome.success,
            concatOutcome := StageOutcome.success, finalOutcome := StageOutcome.success,
            manifestPath := "list.txt", removeOk := fun _ => true, removeManifestOk := true }
          ["a.mp4"] "out.mp4" true 30 none).1 := by
  have h := c10_temp_files (fun _ => true)
    { uuid := fun i => toString i, prepareOutcome := fun _ => StageOutcome.success,
      concatOutcome := StageOutcome.success, finalOutcome := StageOutcome.success,
      manifestPath := "list.txt", removeOk := fun _ => true, removeManifestOk := true }
    ["a.mp4"] "out.mp4" true 30 none rfl (by decide)
  exact ⟨h.1, h.2.1, h.2.2 (by decide)⟩

/-- Claim C4 witness: with intro and outro configured and every file
existing, a two-clip assembly is intro, clips in order, outro, of length
`1 + 2 + 1`. -/
theorem c4_assemble_shape_witness :
    assemble_segments (fun _ => true) ["a.mp4", "b.mp4"]
        { render_intro_path := some ("intro.mp4"), render_outro_path := some ("outro.mp4") }
      = (optional_segment (fun _ => true) (some ("intro.mp4"))).toList
          ++ ["a.mp4", "b.mp4"].filter (fun p => (fun _ => true) p)
          ++ (optional_segment (fun _ => true) (some ("outro.mp4"))).toList
  ∧ (assemble_segments (fun _ => true) ["a.mp4", "b.mp4"]
        { render_intro_path := some ("intro.mp4"),
          render_outro_path := some ("outro.mp4") }).length
      = 1 + (["a.mp4", "b.mp4"] : List String).length + 1 := by
  have h := c4_assemble_shape (fun _ => true) ["a.mp4", "b.mp4"]
    { render_intro_path := some ("intro.mp4"), render_outro_path := some ("outro.mp4") }
  exact ⟨h.1, h.2 (by decide) (by decide) (by decide)⟩
